import Mathlib

/-!
Verification of the Tomasulo RISC-V simulator (TheUnknownThing/RISC-V-Simulator).

This file shallowly embeds the C++ sources in Lean 4:
machine 32-bit unsigned values are `Nat` taken modulo `2^32`, signed
`int32_t` values are `Int` with explicit two's-complement conversions,
byte memory is a function from addresses to bytes, and the stateful
components (register file, load-store buffer, reorder buffer, CPU issue
stage) are explicit state-passing functions mirroring the corresponding
member functions.  Each definition names the source entity it embeds.
-/

namespace RVSim

/-- Sentinel for "no pending ROB tag": `std::numeric_limits<uint32_t>::max()`
(register_file.hpp line 27). -/
def NO_TAG : Nat := 2 ^ 32 - 1

/-- Modulus of 32-bit unsigned arithmetic. -/
def U32MOD : Nat := 2 ^ 32

/-- Reduce a natural number modulo 2^32 (the effect of storing into a
`uint32_t`). -/
def wrapU32 (n : Nat) : Nat := n % U32MOD

/-- Conversion of a C++ signed value to `uint32_t` (two's complement bits). -/
def intToU32 (x : Int) : Nat := (x % (U32MOD : Int)).toNat

/-- Conversion of a 32-bit bit pattern to the `int32_t` it denotes. -/
def u32ToInt (n : Nat) : Int :=
  if n % U32MOD < 2 ^ 31 then ((n % U32MOD : Nat) : Int)
  else ((n % U32MOD : Nat) : Int) - (U32MOD : Int)

/-- Wrapping `uint32_t` subtraction `a - b` (used for the `pc -= 4` rollbacks). -/
def u32sub (a b : Nat) : Nat := wrapU32 (a % U32MOD + U32MOD - b % U32MOD)

/-! ### Decoded instructions (src/riscv/instruction.hpp) -/

/-- Enum `riscv::I_ArithmeticOp`. -/
inductive I_ArithmeticOp
  | ADDI | ANDI | ORI | XORI | SLLI | SRLI | SRAI | SLTI | SLTIU
deriving DecidableEq

/-- Enum `riscv::I_LoadOp`. -/
inductive I_LoadOp
  | LB | LH | LW | LBU | LHU
deriving DecidableEq

/-- Enum `riscv::I_JumpOp`. -/
inductive I_JumpOp
  | JALR
deriving DecidableEq

/-- Enum `riscv::S_StoreOp`. -/
inductive S_StoreOp
  | SB | SH | SW
deriving DecidableEq

/-- Enum `riscv::B_BranchOp`. -/
inductive B_BranchOp
  | BEQ | BNE | BLT | BGE | BLTU | BGEU
deriving DecidableEq

/-- Enum `riscv::U_Op`. -/
inductive U_Op
  | LUI | AUIPC
deriving DecidableEq

/-- Enum `riscv::J_Op`. -/
inductive J_Op
  | JAL
deriving DecidableEq

/-- Enum `riscv::R_ArithmeticOp`. -/
inductive R_ArithmeticOp
  | ADD | SUB | AND | OR | XOR | SLL | SRL | SRA | SLT | SLTU
deriving DecidableEq

/-- The `std::variant<I_ArithmeticOp, I_LoadOp, I_JumpOp>` of `I_Instruction::op`. -/
inductive I_Op
  | arith (op : I_ArithmeticOp)
  | load (op : I_LoadOp)
  | jump (op : I_JumpOp)
deriving DecidableEq

/-- Struct `riscv::R_Instruction`; register indices are 5-bit fields. -/
structure R_Instruction where
  op : R_ArithmeticOp
  rd : Fin 32
  rs1 : Fin 32
  rs2 : Fin 32
deriving DecidableEq

/-- Struct `riscv::I_Instruction`; `imm` is the sign-extended `int32_t`. -/
structure I_Instruction where
  op : I_Op
  rd : Fin 32
  rs1 : Fin 32
  imm : Int
deriving DecidableEq

/-- Struct `riscv::S_Instruction`. -/
structure S_Instruction where
  op : S_StoreOp
  rs1 : Fin 32
  rs2 : Fin 32
  imm : Int
deriving DecidableEq

/-- Struct `riscv::B_Instruction`. -/
structure B_Instruction where
  op : B_BranchOp
  rs1 : Fin 32
  rs2 : Fin 32
  imm : Int
deriving DecidableEq

/-- Struct `riscv::U_Instruction`; the decoder stores `instruction & 0xFFFF F000`
in `imm`, i.e. the upper immediate already shifted into place. -/
structure U_Instruction where
  op : U_Op
  rd : Fin 32
  imm : Int
deriving DecidableEq

/-- Struct `riscv::J_Instruction`. -/
structure J_Instruction where
  op : J_Op
  rd : Fin 32
  imm : Int
deriving DecidableEq

/-- The tagged variant `riscv::DecodedInstruction`; `invalid` is `std::monostate`. -/
inductive DecodedInstruction
  | R (i : R_Instruction)
  | I (i : I_Instruction)
  | S (i : S_Instruction)
  | B (i : B_Instruction)
  | U (i : U_Instruction)
  | J (i : J_Instruction)
  | invalid
deriving DecidableEq

/-! ### Branch predictor state machine (src/core/predictor.hpp) -/

/-- Enum `Predictor::State`. -/
inductive PredictorState
  | STRONG_TAKEN | WEAK_TAKEN | WEAK_NOT_TAKEN | STRONG_NOT_TAKEN
deriving DecidableEq, Fintype

/-- The constructor initialises `state(State::WEAK_NOT_TAKEN)`
(predictor.hpp line 59). -/
def Predictor.initState : PredictorState := .WEAK_NOT_TAKEN

/-- `Predictor::update(bool taken)` (predictor.hpp lines 62-85): the 2-bit
saturating-counter transition. -/
def Predictor.update (taken : Bool) : PredictorState → PredictorState
  | .STRONG_TAKEN => if taken then .STRONG_TAKEN else .WEAK_TAKEN
  | .WEAK_TAKEN => if taken then .STRONG_TAKEN else .WEAK_NOT_TAKEN
  | .WEAK_NOT_TAKEN => if taken then .WEAK_TAKEN else .STRONG_NOT_TAKEN
  | .STRONG_NOT_TAKEN => if taken then .WEAK_NOT_TAKEN else .STRONG_NOT_TAKEN

/-- `Predictor::predict()` (predictor.hpp lines 105-107). -/
def Predictor.predict (s : PredictorState) : Bool :=
  s = .STRONG_TAKEN ∨ s = .WEAK_TAKEN

/-- Position of a predictor state on the saturating chain, with
`STRONG_NOT_TAKEN` at 0 and `STRONG_TAKEN` at 3; used to express that each
update moves exactly one step (saturating at the ends). -/
def PredictorState.level : PredictorState → Nat
  | .STRONG_NOT_TAKEN => 0
  | .WEAK_NOT_TAKEN => 1
  | .WEAK_TAKEN => 2
  | .STRONG_TAKEN => 3

/-! ### Register file (src/core/register_file.hpp) -/

/-- The state of class `RegisterFile`: 32 register values and 32 pending ROB
tags. -/
structure RegisterFile where
  registers : Fin 32 → Nat
  rob_id : Fin 32 → Nat

/-- The `RegisterFile` constructor: all registers zero, all tags available
(register_file.hpp lines 25-28). -/
def RegisterFile.initRF : RegisterFile :=
  { registers := fun _ => 0, rob_id := fun _ => NO_TAG }

/-- `RegisterFile::write` (register_file.hpp lines 30-36): writes to register
zero are ignored. -/
def RegisterFile.write (rf : RegisterFile) (rd : Fin 32) (value : Nat) :
    RegisterFile :=
  if rd = 0 then rf
  else { rf with registers := Function.update rf.registers rd (wrapU32 value) }

/-- `RegisterFile::read` (register_file.hpp line 60); note the source has no
special case for register zero here. -/
def RegisterFile.read (rf : RegisterFile) (rd : Fin 32) : Nat :=
  rf.registers rd

/-- `RegisterFile::receive_rob` (register_file.hpp lines 38-44): tag
assignments to register zero are ignored. -/
def RegisterFile.receive_rob (rf : RegisterFile) (rd : Fin 32) (id : Nat) :
    RegisterFile :=
  if rd = 0 then rf
  else { rf with rob_id := Function.update rf.rob_id rd id }

/-- `RegisterFile::mark_available` (register_file.hpp lines 46-51). -/
def RegisterFile.mark_available (rf : RegisterFile) (rd : Fin 32) :
    RegisterFile :=
  if rd = 0 then rf
  else { rf with rob_id := Function.update rf.rob_id rd NO_TAG }

/-- `RegisterFile::get_rob` (register_file.hpp lines 53-58): register zero
always reports `NO_TAG`. -/
def RegisterFile.get_rob (rf : RegisterFile) (rd : Fin 32) : Nat :=
  if rd = 0 then NO_TAG else rf.rob_id rd

/-- `RegisterFile::flush` (register_file.hpp lines 62-65). -/
def RegisterFile.flushRF (_ : RegisterFile) : RegisterFile :=
  { registers := fun _ => 0, rob_id := fun _ => NO_TAG }

/-- States of the register file reachable through its public mutators. -/
inductive RegisterFile.Reachable : RegisterFile → Prop
  | init : RegisterFile.Reachable RegisterFile.initRF
  | write (rf : RegisterFile) (rd : Fin 32) (v : Nat) :
      RegisterFile.Reachable rf → RegisterFile.Reachable (rf.write rd v)
  | receive_rob (rf : RegisterFile) (rd : Fin 32) (id : Nat) :
      RegisterFile.Reachable rf → RegisterFile.Reachable (rf.receive_rob rd id)
  | mark_available (rf : RegisterFile) (rd : Fin 32) :
      RegisterFile.Reachable rf → RegisterFile.Reachable (rf.mark_available rd)
  | flushRF (rf : RegisterFile) :
      RegisterFile.Reachable rf → RegisterFile.Reachable rf.flushRF

theorem RegisterFile.reachable_reg0 (rf : RegisterFile)
    (h : rf.Reachable) : rf.registers 0 = 0 := by
  induction h with
  | init => rfl
  | write rf rd v _ ih =>
      unfold RegisterFile.write
      by_cases hrd : rd = 0
      · simp [hrd, ih]
      · simp only [if_neg hrd]
        rw [Function.update_noteq (Ne.symm hrd)]
        exact ih
  | receive_rob rf rd id _ ih =>
      unfold RegisterFile.receive_rob
      by_cases hrd : rd = 0
      · simp [hrd, ih]
      · simp only [if_neg hrd]
        exact ih
  | mark_available rf rd _ ih =>
      unfold RegisterFile.mark_available
      by_cases hrd : rd = 0
      · simp [hrd, ih]
      · simp only [if_neg hrd]
        exact ih
  | flushRF rf _ _ => rfl

/-! ### Byte memory (src/core/memory.hpp, class Memory) -/

/-- The `std::unordered_map<uint32_t, uint8_t>` of class `Memory`: absent keys
read as 0 (`read_byte_unsigned`), so we model it directly as a total
byte-valued function on 32-bit addresses. -/
abbrev Mem := Nat → Nat

/-- `Memory::read_byte_unsigned` (memory.hpp lines 138-141); addresses are
`uint32_t`, hence the modulus. -/
def Memory.read_byte_unsigned (m : Mem) (a : Nat) : Nat :=
  m (wrapU32 a)

/-- `Memory::write_byte` (memory.hpp lines 155-157); the data parameter is a
`uint8_t`, hence the `% 256`. -/
def Memory.write_byte (m : Mem) (a d : Nat) : Mem :=
  Function.update m (wrapU32 a) (d % 256)

/-- `Memory::write` (memory.hpp lines 143-148): a full word, little-endian;
the byte expressions `(data >> 8*i) & 0xFF` select the bytes of the
two's-complement representation of the `int32_t` data. -/
def Memory.write (m : Mem) (a : Nat) (data : Int) : Mem :=
  let n := intToU32 data
  Memory.write_byte
    (Memory.write_byte
      (Memory.write_byte (Memory.write_byte m a (n % 256)) (a + 1) (n / 2 ^ 8 % 256))
      (a + 2) (n / 2 ^ 16 % 256))
    (a + 3) (n / 2 ^ 24 % 256)

/-- `Memory::write_halfword` (memory.hpp lines 150-153). -/
def Memory.write_halfword (m : Mem) (a : Nat) (data : Int) : Mem :=
  Memory.write_byte (Memory.write_byte m a (intToU32 data % 256)) (a + 1)
    (intToU32 data / 2 ^ 8 % 256)

/-- `Memory::store` (memory.hpp lines 176-190). -/
def Memory.store (m : Mem) (a : Nat) (data : Int) : S_StoreOp → Mem
  | .SB => Memory.write_byte m a (intToU32 data % 256)
  | .SH => Memory.write_halfword m a data
  | .SW => Memory.write m a data

/-- `Memory::read` (memory.hpp lines 113-120): little-endian word, converted
back to `int32_t`. -/
def Memory.readWord (m : Mem) (a : Nat) : Int :=
  u32ToInt (Memory.read_byte_unsigned m a + Memory.read_byte_unsigned m (a + 1) * 2 ^ 8 +
    Memory.read_byte_unsigned m (a + 2) * 2 ^ 16 + Memory.read_byte_unsigned m (a + 3) * 2 ^ 24)

/-- Sign extension of an 8-bit byte (`Memory::read_byte_signed`). -/
def signExtend8 (b : Nat) : Int :=
  if b % 256 < 128 then ((b % 256 : Nat) : Int) else ((b % 256 : Nat) : Int) - 256

/-- Sign extension of a 16-bit halfword (`Memory::read_halfword`). -/
def signExtend16 (h : Nat) : Int :=
  if h % 2 ^ 16 < 2 ^ 15 then ((h % 2 ^ 16 : Nat) : Int)
  else ((h % 2 ^ 16 : Nat) : Int) - 2 ^ 16

/-- `Memory::load` (memory.hpp lines 159-174). -/
def Memory.load (m : Mem) (a : Nat) : I_LoadOp → Int
  | .LB => signExtend8 (Memory.read_byte_unsigned m a)
  | .LH => signExtend16 (Memory.read_byte_unsigned m a +
      Memory.read_byte_unsigned m (a + 1) * 2 ^ 8)
  | .LW => Memory.readWord m a
  | .LBU => ((Memory.read_byte_unsigned m a : Nat) : Int)
  | .LHU => ((Memory.read_byte_unsigned m a +
      Memory.read_byte_unsigned m (a + 1) * 2 ^ 8 : Nat) : Int)

/-! ### Program image loader (src/utils/binary_loader.hpp) -/

/-- One line of the image text format, after lexing: a blank line, an
`@HEXADDR` line, or a line of whitespace-separated byte values.  The string
and hex lexing (`std::getline`, `stoul`, `stringstream`) is abstracted; the
line-level control flow of `BinaryLoader::loadFile` is kept exactly. -/
inductive LoaderLine
  | blank
  | addr (a : Nat)
  | bytes (bs : List Nat)
deriving DecidableEq

/-- Whether a line is empty (`line.empty()`). -/
def LoaderLine.isBlank : LoaderLine → Bool
  | .blank => true
  | _ => false

/-- The inner loop `while (ss >> hex >> byte_val) memory[current_address++] = ...`
of `BinaryLoader::loadFile`: write bytes at successive addresses. -/
def writeBytesAt : (Nat → Option Nat) → Nat → List Nat → (Nat → Option Nat) × Nat
  | m, a, [] => (m, a)
  | m, a, b :: rest => writeBytesAt (Function.update m (wrapU32 a) (some (b % 256))) (a + 1) rest

/-- `BinaryLoader::loadFile` main loop (binary_loader.hpp lines 93-109), which
is the same loop as `loadFromStdin` (lines 125-141): NOTE the source executes
`if (line.empty()) break;`, i.e. it stops at the first blank line. -/
def BinaryLoader.loadLines :
    List LoaderLine → (Nat → Option Nat) → Nat → (Nat → Option Nat) × Nat
  | [], m, a => (m, a)
  | .blank :: _, m, a => (m, a)
  | .addr x :: rest, m, _ => BinaryLoader.loadLines rest m (wrapU32 x)
  | .bytes bs :: rest, m, a =>
      let p := writeBytesAt m a bs
      BinaryLoader.loadLines rest p.1 p.2

/-! ### Load-store buffer (src/core/memory.hpp, class LSB) -/

/-- Struct `LSBInstruction` (memory.hpp lines 13-29); `op_type` is the
`std::variant<riscv::I_LoadOp, riscv::S_StoreOp>`. -/
structure LSBInstruction where
  op_type : Sum I_LoadOp S_StoreOp
  address : Int
  data : Int
  imm : Int
  dest_tag : Nat
  rob_id : Nat
  can_execute : Bool
deriving DecidableEq

/-- `LSBInstruction::is_load`. -/
def LSBInstruction.is_load (i : LSBInstruction) : Bool :=
  match i.op_type with
  | .inl _ => true
  | .inr _ => false

/-- `LSBInstruction::is_store`. -/
def LSBInstruction.is_store (i : LSBInstruction) : Bool :=
  match i.op_type with
  | .inl _ => false
  | .inr _ => true

/-- Struct `LSBEntry` (memory.hpp lines 31-44). -/
structure LSBEntry where
  instruction : LSBInstruction
  cycles_remaining : Nat
  committed : Bool
  executing : Bool
  valid : Bool
deriving DecidableEq

/-- The default-constructed `LSBEntry` (memory.hpp lines 38-39): not valid. -/
def LSBEntry.empty : LSBEntry :=
  { instruction :=
      { op_type := .inl .LB, address := 0, data := 0, imm := 0,
        dest_tag := 0, rob_id := 0, can_execute := false },
    cycles_remaining := 0, committed := false, executing := false, valid := false }

/-- The payload-constructor `LSBEntry(LSBInstruction)` (memory.hpp lines 41-43). -/
def LSBEntry.ofInstruction (i : LSBInstruction) : LSBEntry :=
  { instruction := i, cycles_remaining := 0, committed := false,
    executing := false, valid := true }

/-- Struct `MemoryResult` (memory.hpp lines 46-58). -/
structure MemoryResult where
  data : Int
  dest_tag : Nat
  rob_id : Nat
  op_type : Sum I_LoadOp S_StoreOp
deriving DecidableEq

/-- The state of class `LSB` (memory.hpp lines 82-110): the
`std::array<LSBEntry, 32>` is a 32-element list of slots. -/
structure LSBState where
  lsb_entries : List LSBEntry
  broadcast_result : Option MemoryResult
  next_broadcast_result : Option MemoryResult
  memory : Mem
  busy : Bool
  entry_count : Nat

/-- The `LSB` constructor (memory.hpp lines 203-205), with the byte memory
already holding an arbitrary loaded program image
(`Memory::initialize_from_loader`). -/
def LSB.initLSB (m0 : Mem) : LSBState :=
  { lsb_entries := List.replicate 32 LSBEntry.empty,
    broadcast_result := none, next_broadcast_result := none,
    memory := m0, busy := false, entry_count := 0 }

/-- Replace the first list element satisfying `p` by its image under `f`
(the effect of the scan-and-mutate loops of `LSB`). -/
def updateFirst (p : LSBEntry → Bool) (f : LSBEntry → LSBEntry) :
    List LSBEntry → List LSBEntry
  | [] => []
  | e :: rest => if p e then f e :: rest else e :: updateFirst p f rest

/-- `LSB::add_instruction` (memory.hpp lines 236-264): an existing entry with
the same `rob_id` is refreshed in place (its `committed`/`executing` flags are
untouched); a full LSB throws before any mutation (modelled as returning the
state unchanged); otherwise the first free slot receives the new entry. -/
def LSB.add_instruction (s : LSBState) (instr : LSBInstruction) : LSBState :=
  if s.lsb_entries.any (fun e => e.valid && e.instruction.rob_id == instr.rob_id) then
    { s with
      lsb_entries :=
        updateFirst (fun e => e.valid && e.instruction.rob_id == instr.rob_id)
          (fun e =>
            { e with
              instruction :=
                { e.instruction with
                  can_execute := instr.can_execute, address := instr.address,
                  data := instr.data, imm := instr.imm,
                  dest_tag := instr.dest_tag } })
          s.lsb_entries }
  else if 32 ≤ s.entry_count then s
  else if s.lsb_entries.any (fun e => !e.valid) then
    { s with
      lsb_entries :=
        updateFirst (fun e => !e.valid) (fun _ => LSBEntry.ofInstruction instr)
          s.lsb_entries,
      entry_count := s.entry_count + 1, busy := true }
  else s

/-- `LSB::commit_memory` (memory.hpp lines 279-287): mark every valid entry
with `rob_id` at most the committed id as committed. -/
def LSB.commit_memory (s : LSBState) (rid : Nat) : LSBState :=
  { s with
    lsb_entries :=
      s.lsb_entries.map fun e =>
        if e.valid && decide (e.instruction.rob_id ≤ rid) then
          { e with committed := true }
        else e }

/-- The scan of `LSB::get_oldest_ready_entry` (memory.hpp lines 218-227):
fold keeping the first valid entry of strictly smallest `rob_id`, together
with its slot index. -/
def oldestAux : List LSBEntry → Nat → Option (Nat × LSBEntry) → Option (Nat × LSBEntry)
  | [], _, best => best
  | e :: rest, i, best =>
      oldestAux rest (i + 1)
        (if e.valid &&
            (match best with
             | none => true
             | some b => decide (e.instruction.rob_id < b.2.instruction.rob_id)) then
          some (i, e)
        else best)

/-- `LSB::get_oldest_ready_entry`, returning the slot index and the entry. -/
def LSB.get_oldest_ready_entry (s : LSBState) : Option (Nat × LSBEntry) :=
  oldestAux s.lsb_entries 0 none

/-- The start-of-execution step inside `LSB::tick` (memory.hpp lines 326-335):
an idle head entry starts executing (latency 3) when it is a load, or a store
whose commit notification arrived, and its operands are captured. -/
def LSB.startIfReady (e0 : LSBEntry) : LSBEntry :=
  if !e0.executing then
    if (e0.instruction.is_load || (e0.instruction.is_store && e0.committed)) &&
        e0.instruction.can_execute then
      { e0 with executing := true, cycles_remaining := 3 }
    else e0
  else e0

/-- The cycle decrement `entry->cycles_remaining--` of `LSB::tick`
(memory.hpp line 338). -/
def LSB.decrement (e : LSBEntry) : LSBEntry :=
  { e with cycles_remaining := e.cycles_remaining - 1 }

/-- The completion step of `LSB::tick` (memory.hpp lines 340-358): perform
the memory access at `effective_address = address + imm`, latch the broadcast
result and free the slot `i`.  The instruction payload is unchanged by
starting/decrementing, so computing the effective address here matches the
source computing it at the top of `tick`. -/
def LSB.completeEntry (s : LSBState) (i : Nat) (e2 : LSBEntry) : LSBState :=
  match e2.instruction.op_type with
  | .inl lop =>
      { s with
        lsb_entries := s.lsb_entries.set i { e2 with valid := false },
        next_broadcast_result :=
          some { data := Memory.load s.memory
                   (wrapU32 (intToU32 (e2.instruction.address + e2.instruction.imm))) lop,
                 dest_tag := e2.instruction.dest_tag,
                 rob_id := e2.instruction.rob_id, op_type := .inl lop },
        entry_count := s.entry_count - 1,
        busy := decide (0 < s.entry_count - 1) }
  | .inr sop =>
      { s with
        memory := Memory.store s.memory
          (wrapU32 (intToU32 (e2.instruction.address + e2.instruction.imm)))
          e2.instruction.data sop,
        lsb_entries := s.lsb_entries.set i { e2 with valid := false },
        next_broadcast_result :=
          some { data := 0, dest_tag := 0,
                 rob_id := e2.instruction.rob_id, op_type := .inr sop },
        entry_count := s.entry_count - 1,
        busy := decide (0 < s.entry_count - 1) }

/-- The body of `LSB::tick` (memory.hpp lines 307-360) once the head entry
has been selected; `i` is its slot index. -/
def LSB.tickSelected (s : LSBState) (i : Nat) (e0 : LSBEntry) : LSBState :=
  if !e0.instruction.can_execute && !e0.executing then
    { s with busy := decide (0 < s.entry_count) }
  else if (LSB.startIfReady e0).executing then
    if (LSB.decrement (LSB.startIfReady e0)).cycles_remaining = 0 then
      LSB.completeEntry s i (LSB.decrement (LSB.startIfReady e0))
    else
      { s with lsb_entries := s.lsb_entries.set i (LSB.decrement (LSB.startIfReady e0)),
               busy := decide (0 < s.entry_count) }
  else
    { s with busy := decide (0 < s.entry_count) }

/-- The broadcast hand-over at the top of `LSB::tick` (memory.hpp lines
290-291). -/
def LSB.latchBroadcast (s : LSBState) : LSBState :=
  { s with broadcast_result := s.next_broadcast_result,
           next_broadcast_result := none }

/-- `LSB::tick` (memory.hpp lines 289-361): publish the pending broadcast,
then advance at most the oldest valid entry by one cycle; stores perform
their memory write only in the completion branch. -/
def LSB.tick (s : LSBState) : LSBState :=
  if (LSB.latchBroadcast s).entry_count = 0 then
    { LSB.latchBroadcast s with busy := false }
  else
    match LSB.get_oldest_ready_entry (LSB.latchBroadcast s) with
    | none => { LSB.latchBroadcast s with
                  busy := decide (0 < (LSB.latchBroadcast s).entry_count) }
    | some (i, e) => LSB.tickSelected (LSB.latchBroadcast s) i e

/-- The per-entry removal effect of `LSB::flush` (memory.hpp lines 368-372). -/
def LSB.flushEntries (l : List LSBEntry) : List LSBEntry :=
  l.map fun e => if e.valid && !e.committed then { e with valid := false } else e

/-- The entry count after `LSB::flush` removed the valid non-committed
entries. -/
def LSB.flushCount (s : LSBState) : Nat :=
  s.entry_count - (s.lsb_entries.filter fun e => e.valid && !e.committed).length

/-- `LSB::flush` (memory.hpp lines 365-379): drop every valid non-committed
entry; clear the broadcast latches when the buffer became empty. -/
def LSB.flush (s : LSBState) : LSBState :=
  if LSB.flushCount s = 0 then
    { s with lsb_entries := LSB.flushEntries s.lsb_entries,
             entry_count := LSB.flushCount s,
             broadcast_result := none, next_broadcast_result := none,
             busy := false }
  else
    { s with lsb_entries := LSB.flushEntries s.lsb_entries,
             entry_count := LSB.flushCount s }

/-- LSB states reachable through the operations the rest of the pipeline may
invoke on it. -/
inductive LSB.Reachable : LSBState → Prop
  | init (m0 : Mem) : LSB.Reachable (LSB.initLSB m0)
  | add (s : LSBState) (i : LSBInstruction) :
      LSB.Reachable s → LSB.Reachable (LSB.add_instruction s i)
  | commitMem (s : LSBState) (r : Nat) :
      LSB.Reachable s → LSB.Reachable (LSB.commit_memory s r)
  | tick (s : LSBState) : LSB.Reachable s → LSB.Reachable (LSB.tick s)
  | flush (s : LSBState) : LSB.Reachable s → LSB.Reachable (LSB.flush s)

/-- The central LSB invariant: a valid store entry can only be executing if
its commit notification has arrived. -/
def StoreExecInv (s : LSBState) : Prop :=
  ∀ e ∈ s.lsb_entries, e.valid = true → e.instruction.is_store = true →
    e.executing = true → e.committed = true

theorem mem_updateFirst {p : LSBEntry → Bool} {f : LSBEntry → LSBEntry}
    {l : List LSBEntry} {a : LSBEntry} (h : a ∈ updateFirst p f l) :
    a ∈ l ∨ ∃ b ∈ l, a = f b := by
  induction l with
  | nil => simp [updateFirst] at h
  | cons e rest ih =>
      unfold updateFirst at h
      by_cases hp : p e
      · simp only [if_pos hp, List.mem_cons] at h
        rcases h with h | h
        · exact Or.inr ⟨e, List.mem_cons_self e rest, h⟩
        · exact Or.inl (List.mem_cons_of_mem e h)
      · simp only [if_neg hp, List.mem_cons] at h
        rcases h with h | h
        · exact Or.inl (h ▸ List.mem_cons_self e rest)
        · rcases ih h with h2 | ⟨b, hb, hab⟩
          · exact Or.inl (List.mem_cons_of_mem e h2)
          · exact Or.inr ⟨b, List.mem_cons_of_mem e hb, hab⟩

theorem mem_of_mem_setList {l : List LSBEntry} {i : Nat} {x a : LSBEntry}
    (h : a ∈ l.set i x) : a ∈ l ∨ a = x := by
  induction l generalizing i with
  | nil => simp [List.set] at h
  | cons e rest ih =>
      cases i with
      | zero =>
          simp only [List.set, List.mem_cons] at h
          rcases h with h | h
          · exact Or.inr h
          · exact Or.inl (List.mem_cons_of_mem e h)
      | succ n =>
          simp only [List.set, List.mem_cons] at h
          rcases h with h | h
          · exact Or.inl (h ▸ List.mem_cons_self e rest)
          · rcases ih h with h2 | h2
            · exact Or.inl (List.mem_cons_of_mem e h2)
            · exact Or.inr h2

theorem oldestAux_mem :
    ∀ (l : List LSBEntry) (n : Nat) (best : Option (Nat × LSBEntry))
      (q : Nat × LSBEntry), oldestAux l n best = some q →
      best = some q ∨ (q.2 ∈ l ∧ q.2.valid = true) := by
  intro l
  induction l with
  | nil =>
      intro n best q h
      exact Or.inl h
  | cons e rest ih =>
      intro n best q h
      unfold oldestAux at h
      rcases ih (n + 1) _ q h with h2 | ⟨hm, hv⟩
      · split at h2
        · rename_i hc
          have hq : q = (n, e) := (Option.some.injEq _ _).mp h2.symm
          subst hq
          have hcv : e.valid = true := by
            simp only [Bool.and_eq_true] at hc
            exact hc.1
          exact Or.inr ⟨List.mem_cons_self e rest, hcv⟩
        · exact Or.inl h2
      · exact Or.inr ⟨List.mem_cons_of_mem e hm, hv⟩

theorem storeExecInv_initLSB (m0 : Mem) : StoreExecInv (LSB.initLSB m0) := by
  intro e he hv
  have : e = LSBEntry.empty := List.eq_of_mem_replicate he
  subst this
  intro hs hex
  cases hex

theorem storeExecInv_add (s : LSBState) (i : LSBInstruction)
    (h : StoreExecInv s) : StoreExecInv (LSB.add_instruction s i) := by
  intro e he hv hs hex
  unfold LSB.add_instruction at he
  split at he
  · rcases mem_updateFirst he with hm | ⟨b, hb, hab⟩
    · exact h e hm hv hs hex
    · subst hab
      refine h b hb ?_ ?_ hex
      · exact hv
      · simpa [LSBInstruction.is_store] using hs
  · split at he
    · exact h e he hv hs hex
    · split at he
      · rcases mem_updateFirst he with hm | ⟨b, hb, hab⟩
        · exact h e hm hv hs hex
        · subst hab
          cases hex
      · exact h e he hv hs hex

theorem storeExecInv_commit_memory (s : LSBState) (r : Nat)
    (h : StoreExecInv s) : StoreExecInv (LSB.commit_memory s r) := by
  intro e he hv hs hex
  unfold LSB.commit_memory at he
  simp only [List.mem_map] at he
  rcases he with ⟨b, hb, hbe⟩
  by_cases hc : (b.valid && decide (b.instruction.rob_id ≤ r)) = true
  · rw [if_pos hc] at hbe
    subst hbe
    rfl
  · rw [if_neg hc] at hbe
    subst hbe
    exact h b hb hv hs hex

theorem storeExecInv_flush (s : LSBState) (h : StoreExecInv s) :
    StoreExecInv (LSB.flush s) := by
  intro e he hv hs hex
  have he2 : e ∈ LSB.flushEntries s.lsb_entries := by
    unfold LSB.flush at he
    split at he <;> exact he
  unfold LSB.flushEntries at he2
  simp only [List.mem_map] at he2
  rcases he2 with ⟨b, hb, hbe⟩
  by_cases hc : (b.valid && !b.committed) = true
  · rw [if_pos hc] at hbe
    subst hbe
    cases hv
  · rw [if_neg hc] at hbe
    subst hbe
    exact h b hb hv hs hex

theorem LSB.startIfReady_instruction (e0 : LSBEntry) :
    (LSB.startIfReady e0).instruction = e0.instruction := by
  unfold LSB.startIfReady
  split <;> [skip; rfl]
  split <;> rfl

theorem LSB.startIfReady_committed (e0 : LSBEntry) :
    (LSB.startIfReady e0).committed = e0.committed := by
  unfold LSB.startIfReady
  split <;> [skip; rfl]
  split <;> rfl

theorem LSB.startIfReady_valid (e0 : LSBEntry) :
    (LSB.startIfReady e0).valid = e0.valid := by
  unfold LSB.startIfReady
  split <;> [skip; rfl]
  split <;> rfl

/-- If the head entry is executing after the start step and is a store, its
commit notification must already have arrived: either it was already
executing (use the invariant) or the start condition demanded `committed`. -/
theorem LSB.startIfReady_store_committed (e0 : LSBEntry)
    (hinv : e0.executing = true → e0.committed = true)
    (hex : (LSB.startIfReady e0).executing = true)
    (hs : e0.instruction.is_store = true) : e0.committed = true := by
  unfold LSB.startIfReady at hex
  cases hb : e0.executing with
  | true => exact hinv hb
  | false =>
      rw [hb] at hex
      simp only [Bool.not_false, if_pos] at hex
      split at hex
      · rename_i hcond
        simp only [Bool.and_eq_true, Bool.or_eq_true] at hcond
        have hnl : e0.instruction.is_load = false := by
          unfold LSBInstruction.is_load
          unfold LSBInstruction.is_store at hs
          revert hs
          cases e0.instruction.op_type <;> simp
        rcases hcond.1 with hc | hc
        · rw [hnl] at hc
          cases hc
        · exact hc.2
      · rw [hb] at hex
        cases hex

theorem storeExecInv_tickSelected (s : LSBState) (i : Nat) (e0 : LSBEntry)
    (h : StoreExecInv s) (he0 : e0 ∈ s.lsb_entries) (hv0 : e0.valid = true) :
    StoreExecInv (LSB.tickSelected s i e0) := by
  intro e he hv hs hex
  unfold LSB.tickSelected at he
  split at he
  · exact h e he hv hs hex
  · split at he
    · split at he
      · -- completion branch: the replaced slot entry is invalid
        rename_i hstarted hdone
        unfold LSB.completeEntry at he
        split at he <;>
          · rcases mem_of_mem_setList he with hm | hx
            · exact h e hm hv hs hex
            · subst hx
              cases hv
      · -- still-executing branch: the slot keeps the decremented entry
        rename_i hstarted hdone
        rcases mem_of_mem_setList he with hm | hx
        · exact h e hm hv hs hex
        · subst hx
          have hs0 : e0.instruction.is_store = true := by
            have := hs
            simp only [LSB.decrement] at this
            rwa [LSB.startIfReady_instruction] at this
          have hcomm : e0.committed = true :=
            LSB.startIfReady_store_committed e0
              (fun hx0 => h e0 he0 hv0 hs0 hx0) hstarted hs0
          simp only [LSB.decrement]
          rw [LSB.startIfReady_committed]
          exact hcomm
    · exact h e he hv hs hex

theorem storeExecInv_tick (s : LSBState) (h : StoreExecInv s) :
    StoreExecInv (LSB.tick s) := by
  unfold LSB.tick
  have hbase : StoreExecInv (LSB.latchBroadcast s) := h
  split
  · exact hbase
  · split
    · exact hbase
    · rename_i hsel
      rcases oldestAux_mem _ 0 none _ hsel with h0 | ⟨hm, hv⟩
      · cases h0
      · exact storeExecInv_tickSelected _ _ _ hbase hm hv

/-- Every reachable LSB state satisfies the store-execution invariant. -/
theorem storeExecInv_reachable (s : LSBState) (h : LSB.Reachable s) :
    StoreExecInv s := by
  induction h with
  | init m0 => exact storeExecInv_initLSB m0
  | add s i _ ih => exact storeExecInv_add s i ih
  | commitMem s r _ ih => exact storeExecInv_commit_memory s r ih
  | tick s _ ih => exact storeExecInv_tick s ih
  | flush s _ ih => exact storeExecInv_flush s ih

/-- If a tick mutates the byte memory, the entry that performed the access is
the selected oldest entry, it is a store, and it was committed before the
tick. -/
theorem tick_memory_change (s : LSBState) (h : StoreExecInv s)
    (hmem : (LSB.tick s).memory ≠ s.memory) :
    ∃ i e0, LSB.get_oldest_ready_entry s = some (i, e0) ∧
      e0.instruction.is_store = true ∧ e0.committed = true := by
  unfold LSB.tick at hmem
  split at hmem
  · exact absurd rfl hmem
  · split at hmem
    · exact absurd rfl hmem
    · rename_i i e0 hsel
      have hsel2 : LSB.get_oldest_ready_entry s = some (i, e0) := hsel
      rcases oldestAux_mem _ 0 none _ hsel with h0 | ⟨hm, hv⟩
      · cases h0
      · refine ⟨i, e0, hsel2, ?_⟩
        unfold LSB.tickSelected at hmem
        split at hmem
        · exact absurd rfl hmem
        · split at hmem
          · split at hmem
            · rename_i hstarted hdone
              unfold LSB.completeEntry at hmem
              split at hmem
              · exact absurd rfl hmem
              · rename_i sop hop
                have hs0 : e0.instruction.is_store = true := by
                  have hop2 : e0.instruction.op_type = .inr sop := by
                    have := hop
                    simp only [LSB.decrement] at this
                    rwa [LSB.startIfReady_instruction] at this
                  unfold LSBInstruction.is_store
                  rw [hop2]
                refine ⟨hs0, ?_⟩
                exact LSB.startIfReady_store_committed e0
                  (fun hx0 => h e0 hm hv hs0 hx0) hstarted hs0
            · exact absurd rfl hmem
          · exact absurd rfl hmem

/-- C2: for every store, the data memory reflects the write only after the
store's ROB entry has been committed - a store entry can only be executing
once its committed flag was set by the commit notification, and a tick that
changes memory was performed by a committed store. -/
theorem c2_store_only_after_commit (s : LSBState) (h : LSB.Reachable s) :
    (∀ e ∈ s.lsb_entries, e.valid = true → e.instruction.is_store = true →
        e.executing = true → e.committed = true) ∧
    ((LSB.tick s).memory ≠ s.memory →
      ∃ i e0, LSB.get_oldest_ready_entry s = some (i, e0) ∧
        e0.instruction.is_store = true ∧ e0.committed = true) :=
  ⟨storeExecInv_reachable s h,
   fun hmem => tick_memory_change s (storeExecInv_reachable s h) hmem⟩

/-- A concrete committed store instruction used for the C2 witness. -/
def witnessStoreInstr : LSBInstruction :=
  { op_type := .inr .SW, address := 64, data := 77, imm := 0,
    dest_tag := 0, rob_id := 0, can_execute := true }

/-- A concrete reachable LSB state: a store was inserted, committed, and
ticked once. -/
def witnessLSBState : LSBState :=
  LSB.tick (LSB.commit_memory
    (LSB.add_instruction (LSB.initLSB fun _ => 0) witnessStoreInstr) 0)

theorem c2_store_only_after_commit_witness :
    LSB.Reachable witnessLSBState ∧
    ((∀ e ∈ witnessLSBState.lsb_entries, e.valid = true →
        e.instruction.is_store = true → e.executing = true →
        e.committed = true) ∧
     ((LSB.tick witnessLSBState).memory ≠ witnessLSBState.memory →
       ∃ i e0, LSB.get_oldest_ready_entry witnessLSBState = some (i, e0) ∧
         e0.instruction.is_store = true ∧ e0.committed = true)) :=
  ⟨LSB.Reachable.tick _ (LSB.Reachable.commitMem _ 0
      (LSB.Reachable.add _ witnessStoreInstr (LSB.Reachable.init fun _ => 0))),
   c2_store_only_after_commit witnessLSBState
     (LSB.Reachable.tick _ (LSB.Reachable.commitMem _ 0
       (LSB.Reachable.add _ witnessStoreInstr (LSB.Reachable.init fun _ => 0))))⟩

/-! ### Reservation station (src/tomasulo/reservation_station.hpp, the
version whose `add_entry` receives pre-resolved operands, paired with the
current cpu.hpp) -/

/-- Struct `ReservationStationEntry` with the `pc` field. -/
structure RSEntry where
  op : DecodedInstruction
  vj : Int
  vk : Int
  qj : Nat
  qk : Nat
  imm : Int
  dest_tag : Nat
  pc : Nat
deriving DecidableEq

/-- `ReservationStation::add_entry`: when the station is full the entry is
dropped with only a log warning (no exception, no rollback). -/
def RS.add_entry (rs : List RSEntry) (ent : RSEntry) : List RSEntry :=
  if rs.length < 32 then rs ++ [ent] else rs

/-- `ReservationStation::receive_broadcast`: replace matching q-slots by the
broadcast value. -/
def RS.receive_broadcast (rs : List RSEntry) (value : Int) (tag : Nat) :
    List RSEntry :=
  rs.map fun ent0 =>
    let ent1 := if ent0.qj = tag then { ent0 with vj := value, qj := NO_TAG } else ent0
    if ent1.qk = tag then { ent1 with vk := value, qk := NO_TAG } else ent1

/-! ### Reorder buffer (src/tomasulo/reorder_buffer.hpp) -/

/-- Struct `ReorderBufferEntry` (reorder_buffer.hpp lines 19-40); `dest_tag`
holds the destination register index. -/
structure ROBEntry where
  instr : DecodedInstruction
  dest_tag : Option (Fin 32)
  value : Int
  ready : Bool
  exception_flag : Bool
  id : Nat
  pc : Nat
  instruction_pc : Nat
deriving DecidableEq

/-- Whether the decoded instruction is a `B_Instruction`. -/
def isBInstr : DecodedInstruction → Bool
  | .B _ => true
  | _ => false

/-- Whether the decoded instruction is `std::monostate` (invalid). -/
def isInvalidInstr : DecodedInstruction → Bool
  | .invalid => true
  | _ => false

/-- The `ReorderBufferEntry` constructor (reorder_buffer.hpp lines 21-31):
entries without a destination that are not branches are born ready. -/
def ROBEntry.make (instr : DecodedInstruction) (dest_tag : Option (Fin 32))
    (id : Nat) (instr_pc : Nat) : ROBEntry :=
  { instr := instr, dest_tag := dest_tag, value := -1,
    ready := dest_tag.isNone && !isBInstr instr,
    exception_flag := false, id := id, pc := 0, instruction_pc := instr_pc }

/-- `ReorderBuffer::add_entry` (reorder_buffer.hpp lines 75-89): returns the
new id, or `none` for the C++ return value `-1` when the ROB (capacity 32) is
full. -/
def ReorderBuffer.add_entry (rob : List ROBEntry) (cur_id : Nat)
    (instr : DecodedInstruction) (dest : Option (Fin 32)) (instr_pc : Nat) :
    List ROBEntry × Nat × Option Nat :=
  if rob.length < 32 then
    (rob ++ [ROBEntry.make instr dest cur_id instr_pc], cur_id + 1, some cur_id)
  else (rob, cur_id, none)

/-- `ReorderBuffer::get_value` (reorder_buffer.hpp lines 268-290): the value
of the first entry with the given id, provided it is ready. -/
def ReorderBuffer.get_value (rob : List ROBEntry) (tag : Nat) : Option Int :=
  match rob.find? (fun e => e.id == tag) with
  | some e => if e.ready then some e.value else none
  | none => none

/-- The detection of the termination sentinel `ADDI x10, x0, 255`
(reorder_buffer.hpp lines 105-109). -/
def isTermination : DecodedInstruction → Bool
  | .I i =>
      match i.op with
      | .arith .ADDI => i.rd == 10 && i.rs1 == 0 && i.imm == 255
      | _ => false
  | _ => false

/-- The tag-release loop of `ReorderBuffer::flush` (reorder_buffer.hpp lines
251-261): walk the entries from head to tail, clearing each register tag that
still names the dropped entry. -/
def ReorderBuffer.flushTags : List ROBEntry → RegisterFile → RegisterFile
  | [], rf => rf
  | e :: rest, rf =>
      ReorderBuffer.flushTags rest
        (match e.dest_tag with
         | some rd => if rf.get_rob rd = e.id then rf.mark_available rd else rf
         | none => rf)

/-- The combined architectural state threaded through Commit and Issue.  The
reorder buffer queue is the list with the head in front; the predictor's
in-flight latch is not represented (its `flush` resets only that latch). -/
structure PipelineState where
  rob : List ROBEntry
  rs : List RSEntry
  regs : RegisterFile
  lsb : LSBState
  pc : Nat
  cur_id : Nat

/-- The observable outcome of one `ReorderBuffer::commit` call: nothing in
the ROB, head not ready, the termination throw of
`ProgramTerminationException` carrying the exit code, or a normal commit
with the mispredict flag the processor uses to stall fetch (cpu.hpp lines
507-512). -/
inductive CommitOutcome
  | nothingToDo
  | notReady
  | terminated (exit : Nat)
  | committed (mispredicted : Bool)
deriving DecidableEq

/-- `ReorderBuffer::commit` (reorder_buffer.hpp lines 91-168).  Steps, in
source order: notify the LSB (`commit_memory`) before the ready check; on
the termination sentinel read `reg[10]`, release its tag without writing,
and throw; on a mispredicted head flush ROB (releasing tags), RS and LSB and
set `pc` to the stored corrected pc - after which the source still executes
the destination-register write with the (now dequeued) head entry data, and
the final `dequeue` is a no-op on the emptied queue. -/
def ReorderBuffer.commit (s : PipelineState) : PipelineState × CommitOutcome :=
  match s.rob with
  | [] => (s, .nothingToDo)
  | ent :: rest =>
      let s1 : PipelineState := { s with lsb := LSB.commit_memory s.lsb ent.id }
      if ent.ready then
        if isTermination ent.instr then
          let exit := RegisterFile.read s1.regs 10
          let regs2 :=
            match ent.dest_tag with
            | some rd =>
                if RegisterFile.get_rob s1.regs rd = ent.id then
                  RegisterFile.mark_available s1.regs rd
                else s1.regs
            | none => s1.regs
          ({ s1 with regs := regs2 }, .terminated exit)
        else
          let s2 : PipelineState :=
            if ent.exception_flag then
              { s1 with rob := [], rs := [],
                        regs := ReorderBuffer.flushTags (ent :: rest) s1.regs,
                        lsb := LSB.flush s1.lsb, pc := ent.pc }
            else s1
          let regs3 :=
            match ent.dest_tag with
            | some rd =>
                let w := RegisterFile.write s2.regs rd (intToU32 ent.value)
                if RegisterFile.get_rob w rd = ent.id then
                  RegisterFile.mark_available w rd
                else w
            | none => s2.regs
          ({ s2 with regs := regs3, rob := s2.rob.drop 1 },
           .committed ent.exception_flag)
      else (s1, .notReady)

/-- `CPU::commit` (cpu.hpp lines 502-515): when `rob.commit` reports a
misprediction, raise `stall_fetch` for this cycle. -/
def CPU.commitStage (s : PipelineState) : PipelineState × Bool :=
  match ReorderBuffer.commit s with
  | (s2, .committed true) => (s2, true)
  | (s2, _) => (s2, false)

/-- The fetch guard of `CPU::Tick` (cpu.hpp line 142): fetch and issue run
only when fetch is not stalled and the ROB is not full. -/
def CPU.fetchAllowed (stall_fetch : Bool) (robFull : Bool) : Bool :=
  !stall_fetch && !robFull

/-- `CPU::run` (cpu.hpp lines 82-106): the termination exception's exit code
is returned unchanged; any other outcome keeps looping. -/
def CPU.runReturn : CommitOutcome → Option Nat
  | .terminated e => some e
  | _ => none

/-! ### Predictor broadcast reception (reorder_buffer.hpp lines 192-217) -/

/-- The `PredictorResult` consumed by `ReorderBuffer::receive_broadcast`:
besides `prediction`, `pc` and `dest_tag` it carries `rob_id`,
`correct_target` and `is_mispredicted`, which no predictor version under
src/ defines - the producing `Predictor` implementation is missing from the
tree. -/
structure PredictorResultB where
  prediction : Bool
  pc : Nat
  dest_tag : Option Nat
  rob_id : Nat
  correct_target : Nat
  is_mispredicted : Bool
deriving DecidableEq

/-- The per-entry update of the predictor branch of
`ReorderBuffer::receive_broadcast`: a matching `dest_tag` (JAL/JALR) records
`result.pc` as the entry value; a matching `rob_id` (plain branch) only
marks ready and stores the corrected target. -/
def ReorderBuffer.predictorEntryUpdate (result : PredictorResultB)
    (ent : ROBEntry) : ROBEntry :=
  if (match result.dest_tag with
      | some t => ent.id == t
      | none => false) then
    { ent with value := u32ToInt result.pc, pc := result.correct_target,
               ready := true, exception_flag := result.is_mispredicted }
  else if ent.id == result.rob_id then
    { ent with ready := true, exception_flag := result.is_mispredicted,
               pc := result.correct_target }
  else ent

/-- The predictor branch of `ReorderBuffer::receive_broadcast`: every ROB
entry is updated, and for a matching destination tag the value is forwarded
to the reservation station (the source calls `rs.receive_broadcast` once per
matching entry inside the loop; the call is idempotent for a fixed value and
tag, so one call when a match exists is the same update). -/
def ReorderBuffer.receivePredictorBroadcast (rob : List ROBEntry)
    (rs : List RSEntry) (result : PredictorResultB) :
    List ROBEntry × List RSEntry :=
  (rob.map (ReorderBuffer.predictorEntryUpdate result),
   if rob.any (fun ent =>
        match result.dest_tag with
        | some t => ent.id == t
        | none => false) then
     RS.receive_broadcast rs (u32ToInt result.pc)
       (match result.dest_tag with
        | some t => t
        | none => 0)
   else rs)

/-- Modelled from the spec: the final `Predictor` implementation producing
the result consumed by `ReorderBuffer::receive_broadcast` (the struct with
`correct_target`, `is_mispredicted` and `rob_id`) is missing from src/ -
every predictor.hpp version in the tree lacks those fields.  Per spec
section 4.5, on completion of a JAL/JALR the predictor reports the link
value `pc_fetched + 4` in the `pc` field ("call ROB.record(dest_tag,
pc_fetched + 4)"; the reorder buffer logs this field as the return
address), together with the resolved target and mispredict flag. -/
def predictorLinkResult (pc_fetched : Nat) (dest : Nat) (ct : Nat)
    (mp : Bool) : PredictorResultB :=
  { prediction := true, pc := wrapU32 (pc_fetched + 4), dest_tag := some dest,
    rob_id := dest, correct_target := ct, is_mispredicted := mp }

/-! ### Issue stage (src/core/cpu.hpp lines 187-311) -/

/-- The destructuring of the decoded instruction at the top of `CPU::issue`
(cpu.hpp lines 195-227): optional `rd`, `rs1`, `rs2` and immediate; note the
U-type extracts only `rd` and `imm` - no source register is captured. -/
def instrFields (instr : DecodedInstruction) :
    Option (Fin 32) × Option (Fin 32) × Option (Fin 32) × Option Int :=
  match instr with
  | .R i => (some i.rd, some i.rs1, some i.rs2, none)
  | .I i => (some i.rd, some i.rs1, none, some i.imm)
  | .S i => (none, some i.rs1, some i.rs2, some i.imm)
  | .B i => (none, some i.rs1, some i.rs2, some i.imm)
  | .U i => (some i.rd, none, none, some i.imm)
  | .J i => (some i.rd, none, none, some i.imm)
  | .invalid => (none, none, none, none)

/-- Operand resolution at Issue (cpu.hpp lines 235-253): read the register
when no tag is pending; otherwise try forwarding from a ready ROB entry;
otherwise wait on the tag with the value left at 0. -/
def CPU.captureOperand (regs : RegisterFile) (rob : List ROBEntry)
    (r : Fin 32) : Int × Nat :=
  let tag := RegisterFile.get_rob regs r
  if tag = NO_TAG then (u32ToInt (RegisterFile.read regs r), NO_TAG)
  else
    match ReorderBuffer.get_value rob tag with
    | some v => (v, NO_TAG)
    | none => (0, tag)

/-- `CPU::issue` (cpu.hpp lines 187-311).  An invalid instruction throws
before any mutation (modelled as the unchanged state).  A full ROB rolls the
PC back by 4 and changes nothing else.  On success the entry enters the ROB,
operands are resolved, the RS receives the entry (silently dropped if the RS
is full), B/J instructions update the speculative PC, and the destination
register tag is claimed. -/
def CPU.issue (s : PipelineState) (instr : DecodedInstruction) :
    PipelineState :=
  if isInvalidInstr instr then s
  else
    let f := instrFields instr
    let rdo := f.1
    let rs1o := f.2.1
    let rs2o := f.2.2.1
    let immo := f.2.2.2
    match ReorderBuffer.add_entry s.rob s.cur_id instr rdo (u32sub s.pc 4) with
    | (rob2, curid2, some idv) =>
        let jq :=
          match rs1o with
          | some r1 => CPU.captureOperand s.regs rob2 r1
          | none => ((0 : Int), NO_TAG)
        let kq :=
          match rs2o with
          | some r2 => CPU.captureOperand s.regs rob2 r2
          | none => (immo.getD 0, NO_TAG)
        let rs3 := RS.add_entry s.rs
          { op := instr, vj := jq.1, vk := kq.1, qj := jq.2, qk := kq.2,
            imm := immo.getD 0, dest_tag := idv, pc := u32sub s.pc 4 }
        let pc2 :=
          match instr with
          | .B b => u32sub (wrapU32 (s.pc + intToU32 b.imm)) 4
          | .J j => u32sub (wrapU32 (s.pc + intToU32 j.imm)) 4
          | _ => s.pc
        let regs2 :=
          match rdo with
          | some r => RegisterFile.receive_rob s.regs r idv
          | none => s.regs
        { s with rob := rob2, cur_id := curid2, rs := rs3, pc := pc2,
                 regs := regs2 }
    | (_, _, none) => { s with pc := u32sub s.pc 4 }

/-! ### ALU U-type operations (src/core/alu.hpp lines 103-111) -/

/-- The `riscv::U_Op` branch of `ALU::execute`: `LUI` returns `b << 12` and
`AUIPC` returns `a + (b << 12)`, on wrapping 32-bit arithmetic. -/
def ALU.executeU : U_Op → Int → Int → Int
  | .LUI, _, b => u32ToInt (intToU32 (b * 4096))
  | .AUIPC, a, b => u32ToInt (intToU32 (a + b * 4096))

/-- The U-type dispatch of `CPU::dispatch` (cpu.hpp lines 453-464): the ALU
inputs are `a = ent.vj` and `b = ent.vk` taken from the reservation-station
entry. -/
def CPU.dispatchUInputs (ent : RSEntry) : Int × Int :=
  (ent.vj, ent.vk)

/-! ### Auxiliary register-file lemmas -/

theorem RegisterFile.read_mark_available (rf : RegisterFile) (rd r : Fin 32) :
    RegisterFile.read (rf.mark_available rd) r = RegisterFile.read rf r := by
  unfold RegisterFile.mark_available RegisterFile.read
  split <;> rfl

theorem RegisterFile.read_write_self (rf : RegisterFile) (rd : Fin 32)
    (v : Nat) (h : rd ≠ 0) :
    RegisterFile.read (rf.write rd v) rd = wrapU32 v := by
  unfold RegisterFile.write RegisterFile.read
  rw [if_neg h]
  exact Function.update_same rd _ rf.registers

theorem RegisterFile.get_rob_write (rf : RegisterFile) (rd : Fin 32) (v : Nat)
    (r : Fin 32) :
    RegisterFile.get_rob (rf.write rd v) r = rf.get_rob r := by
  unfold RegisterFile.write RegisterFile.get_rob
  split
  · rfl
  · split <;> rfl

theorem RegisterFile.get_rob_mark_available_ne (rf : RegisterFile)
    (rd r : Fin 32) (h : r ≠ rd) :
    RegisterFile.get_rob (rf.mark_available rd) r = rf.get_rob r := by
  unfold RegisterFile.mark_available RegisterFile.get_rob
  by_cases h0 : rd = 0
  · rw [if_pos h0]
  · rw [if_neg h0]
    by_cases hr0 : r = 0
    · rw [if_pos hr0, if_pos hr0]
    · rw [if_neg hr0, if_neg hr0]
      exact Function.update_noteq h _ _

theorem RegisterFile.get_rob_mark_available_self (rf : RegisterFile)
    (rd : Fin 32) (h : rd ≠ 0) :
    RegisterFile.get_rob (rf.mark_available rd) rd = NO_TAG := by
  unfold RegisterFile.mark_available RegisterFile.get_rob
  rw [if_neg h, if_neg h]
  exact Function.update_same rd _ rf.rob_id

theorem RegisterFile.get_rob_mark_available_of_clear (rf : RegisterFile)
    (rd : Fin 32) (hall : ∀ r, rf.get_rob r = NO_TAG) (r : Fin 32) :
    RegisterFile.get_rob (rf.mark_available rd) r = NO_TAG := by
  by_cases h0 : rd = 0
  · subst h0
    unfold RegisterFile.mark_available
    rw [if_pos rfl]
    exact hall r
  · by_cases hr : r = rd
    · subst hr
      exact RegisterFile.get_rob_mark_available_self rf r h0
    · rw [RegisterFile.get_rob_mark_available_ne rf rd r hr]
      exact hall r

/-! ### Claim C6 - the 2-bit saturating branch predictor -/

/-- C6: the branch predictor is a single 2-bit saturating counter that starts
in Weak-NotTaken, predicts Taken exactly on the Strong-Taken and Weak-Taken
states, moves exactly one step along the saturating chain per update, and
from any state four consecutive Taken updates reach Strong-Taken, where
every further Taken update keeps it. -/
theorem c6_predictor_counter :
    Predictor.initState = PredictorState.WEAK_NOT_TAKEN ∧
    (∀ s, Predictor.predict s = true ↔
      (s = PredictorState.STRONG_TAKEN ∨ s = PredictorState.WEAK_TAKEN)) ∧
    (∀ s, (Predictor.update true s).level = min (s.level + 1) 3 ∧
          (Predictor.update false s).level = s.level - 1) ∧
    (∀ s, Predictor.update true (Predictor.update true (Predictor.update true
        (Predictor.update true s))) = PredictorState.STRONG_TAKEN) ∧
    Predictor.update true PredictorState.STRONG_TAKEN =
      PredictorState.STRONG_TAKEN := by
  decide

/-! ### Claim C7 - register x0 -/

/-- C7: in every reachable register-file state x0 reads 0, writes to x0 leave
the register file unchanged, tag assignments to x0 are dropped, and the
pending tag of x0 always reads `NO_TAG`. -/
theorem c7_x0_invariant (rf : RegisterFile) (h : rf.Reachable) :
    RegisterFile.read rf 0 = 0 ∧
    (∀ v, RegisterFile.write rf 0 v = rf) ∧
    (∀ id, RegisterFile.receive_rob rf 0 id = rf) ∧
    RegisterFile.get_rob rf 0 = NO_TAG := by
  refine ⟨RegisterFile.reachable_reg0 rf h, ?_, ?_, ?_⟩
  · intro v
    unfold RegisterFile.write
    rw [if_pos rfl]
  · intro id
    unfold RegisterFile.receive_rob
    rw [if_pos rfl]
  · unfold RegisterFile.get_rob
    rw [if_pos rfl]

theorem c7_x0_invariant_witness :
    RegisterFile.Reachable
      (RegisterFile.receive_rob
        (RegisterFile.write RegisterFile.initRF 5 77) 3 2) ∧
    (RegisterFile.read
        (RegisterFile.receive_rob
          (RegisterFile.write RegisterFile.initRF 5 77) 3 2) 0 = 0 ∧
     (∀ v, RegisterFile.write
        (RegisterFile.receive_rob
          (RegisterFile.write RegisterFile.initRF 5 77) 3 2) 0 v =
        RegisterFile.receive_rob
          (RegisterFile.write RegisterFile.initRF 5 77) 3 2) ∧
     (∀ id, RegisterFile.receive_rob
        (RegisterFile.receive_rob
          (RegisterFile.write RegisterFile.initRF 5 77) 3 2) 0 id =
        RegisterFile.receive_rob
          (RegisterFile.write RegisterFile.initRF 5 77) 3 2) ∧
     RegisterFile.get_rob
        (RegisterFile.receive_rob
          (RegisterFile.write RegisterFile.initRF 5 77) 3 2) 0 = NO_TAG) :=
  ⟨RegisterFile.Reachable.receive_rob _ 3 2
      (RegisterFile.Reachable.write _ 5 77 RegisterFile.Reachable.init),
   by
    have h := c7_x0_invariant _
      (RegisterFile.Reachable.receive_rob _ 3 2
        (RegisterFile.Reachable.write _ 5 77 RegisterFile.Reachable.init))
    exact ⟨h.1, h.2.1, h.2.2.1, h.2.2.2⟩⟩

/-! ### Claim C10 - the store frame property -/

/-- C10: `Memory::store` touches only the accessed bytes: SB modifies at most
the byte at the (32-bit) address, SH at most the two bytes at `a`, `a+1`, SW
at most the four bytes at `a`..`a+3`; every other address keeps its previous
content. -/
theorem c10_store_frame (m : Mem) (a : Nat) (data : Int) (x : Nat) :
    (x ≠ wrapU32 a → Memory.store m a data S_StoreOp.SB x = m x) ∧
    (x ≠ wrapU32 a → x ≠ wrapU32 (a + 1) →
      Memory.store m a data S_StoreOp.SH x = m x) ∧
    (x ≠ wrapU32 a → x ≠ wrapU32 (a + 1) → x ≠ wrapU32 (a + 2) →
      x ≠ wrapU32 (a + 3) → Memory.store m a data S_StoreOp.SW x = m x) := by
  refine ⟨?_, ?_, ?_⟩
  · intro h1
    unfold Memory.store Memory.write_byte
    exact Function.update_noteq h1 _ _
  · intro h1 h2
    simp only [Memory.store]
    unfold Memory.write_halfword Memory.write_byte
    rw [Function.update_noteq h2, Function.update_noteq h1]
  · intro h1 h2 h3 h4
    simp only [Memory.store]
    unfold Memory.write Memory.write_byte
    rw [Function.update_noteq h4, Function.update_noteq h3,
        Function.update_noteq h2, Function.update_noteq h1]

theorem c10_store_frame_witness :
    ((50 : Nat) ≠ wrapU32 100) ∧
    Memory.store (fun n => n % 256) 100 (-1) S_StoreOp.SB 50 =
      (fun (n : Nat) => n % 256) 50 :=
  ⟨by decide, (c10_store_frame (fun n => n % 256) 100 (-1) 50).1 (by decide)⟩

/-! ### Claim C9 - loader behaviour at blank lines -/

/-- C9 counterexample: in the image with a byte line, then a blank line, then
another byte line, the byte after the blank line is NOT loaded (the claim
asserts it would be loaded at address 1). -/
theorem c9_counterexample :
    ((BinaryLoader.loadLines
        [LoaderLine.bytes [171], LoaderLine.blank, LoaderLine.bytes [205]]
        (fun _ => none) 0).1 0 = some 171) ∧
    ((BinaryLoader.loadLines
        [LoaderLine.bytes [171], LoaderLine.blank, LoaderLine.bytes [205]]
        (fun _ => none) 0).1 1 = none) := by
  constructor <;> decide

/-- C9 (amended): the loader stops at the first blank line - loading a line
list is the same as loading only its prefix before the first blank line, so
bytes on lines after a blank line are never loaded. -/
theorem c9_loader_stops_at_blank (ls : List LoaderLine)
    (m : Nat → Option Nat) (a : Nat) :
    BinaryLoader.loadLines ls m a =
      BinaryLoader.loadLines (ls.takeWhile fun l => !l.isBlank) m a := by
  induction ls generalizing m a with
  | nil => rfl
  | cons l rest ih =>
      cases l with
      | blank => rfl
      | addr x =>
          simp only [BinaryLoader.loadLines, List.takeWhile, LoaderLine.isBlank,
            Bool.not_false]
          exact ih m (wrapU32 x)
      | bytes bs =>
          simp only [BinaryLoader.loadLines, List.takeWhile, LoaderLine.isBlank,
            Bool.not_false]
          exact ih _ _

/-! ### Claim C1 - the termination sentinel -/

/-- C1 (amended): when the ROB head is the ready termination sentinel
`ADDI x10, x0, 255`, commit reads the current `reg[10]` before any
overwrite, performs no register-value write at all (in particular reg[10]
is not overwritten), and `run()` returns exactly that unmasked register
value as the exit code - the source never masks it with 0xFF. -/
theorem c1_exit_code (s : PipelineState) (ent : ROBEntry)
    (rest : List ROBEntry) (hrob : s.rob = ent :: rest)
    (hready : ent.ready = true) (hterm : isTermination ent.instr = true) :
    (ReorderBuffer.commit s).2 =
      CommitOutcome.terminated (RegisterFile.read s.regs 10) ∧
    (∀ r, RegisterFile.read (ReorderBuffer.commit s).1.regs r =
      RegisterFile.read s.regs r) ∧
    CPU.runReturn (ReorderBuffer.commit s).2 =
      some (RegisterFile.read s.regs 10) := by
  obtain ⟨rob, rs, regs, lsb, pc, cid⟩ := s
  simp only at hrob
  subst hrob
  simp only [ReorderBuffer.commit, hready, hterm, if_true]
  refine ⟨trivial, ?_, rfl⟩
  intro r
  cases hd : ent.dest_tag with
  | none => rfl
  | some rd =>
      simp only [hd]
      split
      · exact RegisterFile.read_mark_available regs rd r
      · rfl

/-- The ROB entry of the ready termination sentinel used by the C1 theorems. -/
def c1Ent : ROBEntry :=
  { instr := DecodedInstruction.I
      { op := I_Op.arith I_ArithmeticOp.ADDI, rd := 10, rs1 := 0, imm := 255 },
    dest_tag := some 10, value := 255, ready := true,
    exception_flag := false, id := 0, pc := 0, instruction_pc := 4 }

/-- A concrete pipeline state whose ROB head is the ready termination
sentinel and whose register a0 holds 300. -/
def c1State : PipelineState :=
  { rob := [c1Ent],
    rs := [], regs := RegisterFile.write RegisterFile.initRF 10 300,
    lsb := LSB.initLSB fun _ => 0, pc := 8, cur_id := 1 }

/-- C1 counterexample: with `reg[10] = 300` the simulator terminates with
exit code 300, while the claim demands `reg[10] & 0xFF = 44`. -/
theorem c1_counterexample :
    (ReorderBuffer.commit c1State).2 = CommitOutcome.terminated 300 ∧
    CPU.runReturn (ReorderBuffer.commit c1State).2 = some 300 ∧
    (300 : Nat) ≠ 300 &&& 255 := by
  refine ⟨by decide, by decide, by decide⟩

theorem c1_exit_code_witness :
    c1State.rob = c1Ent :: [] ∧
    c1Ent.ready = true ∧
    isTermination c1Ent.instr = true ∧
    ((ReorderBuffer.commit c1State).2 =
      CommitOutcome.terminated (RegisterFile.read c1State.regs 10) ∧
     (∀ r, RegisterFile.read (ReorderBuffer.commit c1State).1.regs r =
       RegisterFile.read c1State.regs r) ∧
     CPU.runReturn (ReorderBuffer.commit c1State).2 =
       some (RegisterFile.read c1State.regs 10)) :=
  ⟨rfl, rfl, by decide,
   c1_exit_code c1State c1Ent [] rfl rfl (by decide)⟩

/-! ### Claim C4 - the JAL/JALR link value -/

theorem wrapU32_mod_idem (k : Nat) :
    wrapU32 (wrapU32 k % U32MOD) = wrapU32 k := by
  unfold wrapU32
  rw [Nat.mod_mod_of_dvd _ (dvd_refl _), Nat.mod_mod_of_dvd _ (dvd_refl _)]

/-- Converting a 32-bit pattern to `int32_t` and back yields the pattern. -/
theorem intToU32_u32ToInt (n : Nat) : intToU32 (u32ToInt n) = n % U32MOD := by
  unfold intToU32 u32ToInt U32MOD
  have e1 : (2 : Nat) ^ 32 = 4294967296 := by norm_num
  have e2 : (2 : Nat) ^ 31 = 2147483648 := by norm_num
  rw [e1, e2]
  split <;> omega

theorem predictorEntryUpdate_id (result : PredictorResultB) (e : ROBEntry) :
    (ReorderBuffer.predictorEntryUpdate result e).id = e.id := by
  unfold ReorderBuffer.predictorEntryUpdate
  split
  · rfl
  · split <;> rfl

/-- C4: on predictor completion of a JAL/JALR (modelled link result, see
`predictorLinkResult`), the ROB records `pc_fetched + 4` as the entry value,
and committing such an entry writes exactly that value to the destination
register. -/
theorem c4_link_value (pcF t ct : Nat) (mp : Bool) (rob : List ROBEntry)
    (rs : List RSEntry) (s : PipelineState) (ent : ROBEntry)
    (rest : List ROBEntry) (rd : Fin 32) :
    (∀ e2 ∈ (ReorderBuffer.receivePredictorBroadcast rob rs
        (predictorLinkResult pcF t ct mp)).1, e2.id = t →
      e2.ready = true ∧ e2.value = u32ToInt (wrapU32 (pcF + 4))) ∧
    (s.rob = ent :: rest → ent.ready = true →
      isTermination ent.instr = false → ent.dest_tag = some rd → rd ≠ 0 →
      ent.value = u32ToInt (wrapU32 (pcF + 4)) →
      RegisterFile.read (ReorderBuffer.commit s).1.regs rd =
        wrapU32 (pcF + 4)) := by
  constructor
  · intro e2 he2 hid
    simp only [ReorderBuffer.receivePredictorBroadcast, List.mem_map] at he2
    rcases he2 with ⟨e, he, hfe⟩
    subst hfe
    have hidE : e.id = t := by
      rw [predictorEntryUpdate_id] at hid
      exact hid
    have hcond : (match (predictorLinkResult pcF t ct mp).dest_tag with
        | some t2 => e.id == t2
        | none => false) = true := by
      simp [predictorLinkResult, hidE]
    unfold ReorderBuffer.predictorEntryUpdate
    rw [if_pos hcond]
    exact ⟨rfl, rfl⟩
  · intro hrob hready hterm hdest hrd0 hval
    obtain ⟨rob2, rs2, regs, lsb, pc, cid⟩ := s
    simp only at hrob
    subst hrob
    simp only [ReorderBuffer.commit, hready, hterm, if_true,
      Bool.false_eq_true, if_false, hdest]
    split <;> split <;>
      first
      | rw [RegisterFile.read_mark_available,
            RegisterFile.read_write_self _ _ _ hrd0, hval, intToU32_u32ToInt,
            wrapU32_mod_idem]
      | rw [RegisterFile.read_write_self _ _ _ hrd0, hval, intToU32_u32ToInt,
            wrapU32_mod_idem]

/-- The ROB entry of a completed JAL used by the C4 witness: id 0, link
register x1, link value 4 (the JAL was fetched at pc 0). -/
def c4Ent : ROBEntry :=
  { instr := DecodedInstruction.J { op := J_Op.JAL, rd := 1, imm := 8 },
    dest_tag := some 1, value := u32ToInt (wrapU32 (0 + 4)), ready := true,
    exception_flag := false, id := 0, pc := 8, instruction_pc := 0 }

/-- A concrete pipeline state whose ROB head is the completed JAL. -/
def c4State : PipelineState :=
  { rob := [c4Ent], rs := [], regs := RegisterFile.initRF,
    lsb := LSB.initLSB fun _ => 0, pc := 12, cur_id := 1 }

theorem c4_link_value_witness :
    c4State.rob = c4Ent :: [] ∧ c4Ent.ready = true ∧
    isTermination c4Ent.instr = false ∧ c4Ent.dest_tag = some 1 ∧
    (1 : Fin 32) ≠ 0 ∧ c4Ent.value = u32ToInt (wrapU32 (0 + 4)) ∧
    RegisterFile.read (ReorderBuffer.commit c4State).1.regs 1 =
      wrapU32 (0 + 4) :=
  ⟨rfl, rfl, by decide, rfl, by decide, rfl,
   (c4_link_value 0 0 16 false [] [] c4State c4Ent [] 1).2 rfl rfl
     (by decide) rfl (by decide) rfl⟩

/-! ### Claim C5 - LUI/AUIPC and the AUIPC pc input -/

/-- The decoded AUIPC x5 instruction whose raw upper-immediate field is 1:
the decoder stores `instruction & 0xFFFFF000 = 0x1000` in `imm`. -/
def auipcInstr : DecodedInstruction :=
  DecodedInstruction.U { op := U_Op.AUIPC, rd := 5, imm := 4096 }

/-- An empty pipeline about to issue the AUIPC fetched at pc 8 (the fetch
stage has already advanced the pc to 12). -/
def c5State : PipelineState :=
  { rob := [], rs := [], regs := RegisterFile.initRF,
    lsb := LSB.initLSB fun _ => 0, pc := 12, cur_id := 0 }

/-- C5 failing input, evaluated on the code: issuing AUIPC x5 (decoded imm
0x1000) fetched at pc 8 produces a reservation-station entry with `vj = 0`
(the U-type captures no rs1, so the ALU input `a` is 0, not the fetch pc 8),
and the ALU result is `0 + (0x1000 << 12) = 0x1000000`, which differs from
the claimed `pc + (imm << 12)` under either reading of `imm` (4104 for the
20-bit field, 16777224 for the pre-shifted decoded immediate). -/
theorem c5_auipc_failing_input :
    (CPU.issue c5State auipcInstr).rs =
      [{ op := auipcInstr, vj := 0, vk := 4096, qj := NO_TAG, qk := NO_TAG,
         imm := 4096, dest_tag := 0, pc := 8 }] ∧
    (CPU.dispatchUInputs
      { op := auipcInstr, vj := 0, vk := 4096, qj := NO_TAG, qk := NO_TAG,
        imm := 4096, dest_tag := 0, pc := 8 }).1 = 0 ∧
    (0 : Int) ≠ 8 ∧
    ALU.executeU U_Op.AUIPC 0 4096 = 16777216 ∧
    (16777216 : Int) ≠ 8 + 4096 ∧
    (16777216 : Int) ≠ 8 + 4096 * 4096 := by
  refine ⟨by decide, rfl, by decide, by decide, by decide, by decide⟩

/-! ### Claim C8 - structural stall at Issue -/

/-- C8 (amended): a full ROB stalls Issue as claimed - the PC is rolled back
by 4 and nothing else changes, so the same instruction is refetched next
cycle.  (A full RS with a non-full ROB instead keeps the ROB entry and
silently drops the RS entry without a rollback, see `c8_counterexample`;
the LSB is not accessed at Issue at all.) -/
theorem c8_rob_full_stall (s : PipelineState) (instr : DecodedInstruction)
    (hfull : s.rob.length = 32) (hvalid : isInvalidInstr instr = false) :
    CPU.issue s instr = { s with pc := u32sub s.pc 4 } := by
  unfold CPU.issue
  rw [hvalid]
  simp only [Bool.false_eq_true, if_false]
  unfold ReorderBuffer.add_entry
  rw [hfull]
  simp only [lt_irrefl, if_false]

/-- A representative ADDI instruction used by the C8 theorems. -/
def addiInstr : DecodedInstruction :=
  DecodedInstruction.I
    { op := I_Op.arith I_ArithmeticOp.ADDI, rd := 1, rs1 := 0, imm := 5 }

/-- A placeholder RS entry used to fill the reservation station. -/
def dummyRSEntry : RSEntry :=
  { op := DecodedInstruction.invalid, vj := 0, vk := 0, qj := NO_TAG,
    qk := NO_TAG, imm := 0, dest_tag := 0, pc := 0 }

/-- A pipeline state with an empty ROB but a completely full RS. -/
def c8FullRSState : PipelineState :=
  { rob := [], rs := List.replicate 32 dummyRSEntry,
    regs := RegisterFile.initRF, lsb := LSB.initLSB fun _ => 0,
    pc := 8, cur_id := 0 }

/-- C8 counterexample: with the RS full (and the ROB not full), Issue does
NOT roll the PC back (it stays 8, the rolled-back value would be 4) and the
failed attempt durably changes state - the ROB gains the instruction while
the full RS silently drops it. -/
theorem c8_counterexample :
    (CPU.issue c8FullRSState addiInstr).pc = 8 ∧
    (8 : Nat) ≠ u32sub 8 4 ∧
    (CPU.issue c8FullRSState addiInstr).rob.length = 1 ∧
    (CPU.issue c8FullRSState addiInstr).rs.length = 32 := by
  refine ⟨by decide, by decide, by decide, by decide⟩

/-- A placeholder ROB entry used to fill the reorder buffer. -/
def dummyROBEntry : ROBEntry := ROBEntry.make addiInstr (some 1) 0 0

/-- A pipeline state with a completely full ROB. -/
def c8FullROBState : PipelineState :=
  { rob := List.replicate 32 dummyROBEntry, rs := [],
    regs := RegisterFile.initRF, lsb := LSB.initLSB fun _ => 0,
    pc := 8, cur_id := 32 }

theorem c8_rob_full_stall_witness :
    c8FullROBState.rob.length = 32 ∧ isInvalidInstr addiInstr = false ∧
    CPU.issue c8FullROBState addiInstr =
      { c8FullROBState with pc := u32sub c8FullROBState.pc 4 } :=
  ⟨by decide, rfl, c8_rob_full_stall c8FullROBState addiInstr (by decide) rfl⟩

/-! ### Claim C3 - misprediction recovery -/

theorem RegisterFile.get_rob_zero (rf : RegisterFile) :
    RegisterFile.get_rob rf 0 = NO_TAG := by
  unfold RegisterFile.get_rob
  rw [if_pos rfl]

/-- After `LSB::flush` every remaining valid entry is committed. -/
theorem LSB.flush_valid_committed (s : LSBState) :
    ∀ e ∈ (LSB.flush s).lsb_entries, e.valid = true → e.committed = true := by
  intro e he hv
  have he2 : e ∈ LSB.flushEntries s.lsb_entries := by
    unfold LSB.flush at he
    split at he <;> exact he
  unfold LSB.flushEntries at he2
  simp only [List.mem_map] at he2
  rcases he2 with ⟨b, hb, hbe⟩
  by_cases hc : (b.valid && !b.committed) = true
  · rw [if_pos hc] at hbe
    subst hbe
    cases hv
  · rw [if_neg hc] at hbe
    subst hbe
    cases hcb : b.committed with
    | true => rfl
    | false =>
        exfalso
        apply hc
        rw [Bool.and_eq_true]
        exact ⟨hv, by rw [hcb]; rfl⟩

/-- The tag-release loop of the ROB flush clears every pending register tag,
provided every pending tag names a live ROB entry with that destination (the
documented data-model invariant). -/
theorem flushTags_clears (l : List ROBEntry) (rf : RegisterFile)
    (hcov : ∀ r : Fin 32, RegisterFile.get_rob rf r ≠ NO_TAG →
      ∃ e ∈ l, e.dest_tag = some r ∧ e.id = RegisterFile.get_rob rf r) :
    ∀ r, RegisterFile.get_rob (ReorderBuffer.flushTags l rf) r = NO_TAG := by
  induction l generalizing rf with
  | nil =>
      intro r
      by_contra hne
      rcases hcov r hne with ⟨e, he, _⟩
      exact absurd he (List.not_mem_nil e)
  | cons e rest ih =>
      intro r
      unfold ReorderBuffer.flushTags
      apply ih
      intro r2 hr2
      cases hd : e.dest_tag with
      | none =>
          rw [hd] at hr2
          dsimp only at hr2
          rcases hcov r2 hr2 with ⟨e2, he2, hdd, hid⟩
          rcases List.mem_cons.mp he2 with he2e | he2r
          · subst he2e
            rw [hd] at hdd
            cases hdd
          · exact ⟨e2, he2r, hdd, hid⟩
      | some rd =>
          rw [hd] at hr2
          dsimp only at hr2 ⊢
          by_cases hm : RegisterFile.get_rob rf rd = e.id
          · rw [if_pos hm] at hr2 ⊢
            have hr2rd : r2 ≠ rd := by
              intro hh
              subst hh
              by_cases h0 : r2 = 0
              · subst h0
                exact hr2 (RegisterFile.get_rob_zero _)
              · exact hr2 (RegisterFile.get_rob_mark_available_self rf r2 h0)
            rw [RegisterFile.get_rob_mark_available_ne rf rd r2 hr2rd] at hr2 ⊢
            rcases hcov r2 hr2 with ⟨e2, he2, hdd, hid⟩
            rcases List.mem_cons.mp he2 with he2e | he2r
            · subst he2e
              rw [hd] at hdd
              exact absurd (Option.some.injEq _ _ ▸ hdd) fun hh =>
                hr2rd (by cases hdd; rfl)
            · exact ⟨e2, he2r, hdd, hid⟩
          · rw [if_neg hm] at hr2 ⊢
            rcases hcov r2 hr2 with ⟨e2, he2, hdd, hid⟩
            rcases List.mem_cons.mp he2 with he2e | he2r
            · subst he2e
              rw [hd] at hdd
              cases hdd
              exact absurd hid.symm hm
            · exact ⟨e2, he2r, hdd, hid⟩

/-- C3: committing a mispredicted branch leaves the reservation station
empty, leaves the LSB with no valid non-committed entry, clears every
register pending tag to NO_TAG (under the documented invariant that every
pending tag names a live ROB entry with that destination), sets the PC to
the corrected pc stored on the entry, and stalls fetch for that cycle. -/
theorem c3_recovery (s : PipelineState) (ent : ROBEntry)
    (rest : List ROBEntry) (b : Bool)
    (hrob : s.rob = ent :: rest) (hready : ent.ready = true)
    (hmp : ent.exception_flag = true)
    (hterm : isTermination ent.instr = false)
    (hcov : ∀ r : Fin 32, RegisterFile.get_rob s.regs r ≠ NO_TAG →
      ∃ e ∈ s.rob, e.dest_tag = some r ∧
        e.id = RegisterFile.get_rob s.regs r) :
    (CPU.commitStage s).1.rs = [] ∧
    (∀ e ∈ (CPU.commitStage s).1.lsb.lsb_entries, e.valid = true →
      e.committed = true) ∧
    (∀ r, RegisterFile.get_rob (CPU.commitStage s).1.regs r = NO_TAG) ∧
    (CPU.commitStage s).1.pc = ent.pc ∧
    (CPU.commitStage s).2 = true ∧
    CPU.fetchAllowed (CPU.commitStage s).2 b = false := by
  obtain ⟨rob2, rs2, regs, lsb, pc, cid⟩ := s
  simp only at hrob hcov
  subst hrob
  have hclear : ∀ r, RegisterFile.get_rob
      (ReorderBuffer.flushTags (ent :: rest) regs) r = NO_TAG :=
    flushTags_clears (ent :: rest) regs hcov
  unfold CPU.commitStage
  simp only [ReorderBuffer.commit, hready, hterm, hmp, if_true,
    Bool.false_eq_true, if_false]
  refine ⟨by trivial, LSB.flush_valid_committed _, ?_, by trivial, by trivial,
    by trivial⟩
  intro r
  cases hd : ent.dest_tag with
  | none =>
      simp only [hd]
      exact hclear r
  | some rd =>
      simp only [hd]
      split
      · exact RegisterFile.get_rob_mark_available_of_clear _ rd
          (fun r3 => (RegisterFile.get_rob_write _ rd _ r3).trans (hclear r3)) r
      · exact (RegisterFile.get_rob_write _ rd _ r).trans (hclear r)

/-- The mispredicted branch entry used by the C3 witness: corrected pc 16. -/
def c3Ent : ROBEntry :=
  { instr := DecodedInstruction.B
      { op := B_BranchOp.BEQ, rs1 := 1, rs2 := 2, imm := 8 },
    dest_tag := none, value := 0, ready := true, exception_flag := true,
    id := 0, pc := 16, instruction_pc := 0 }

/-- A concrete pipeline state about to commit the mispredicted branch. -/
def c3State : PipelineState :=
  { rob := [c3Ent], rs := [dummyRSEntry], regs := RegisterFile.initRF,
    lsb := LSB.initLSB fun _ => 0, pc := 12, cur_id := 1 }

theorem c3_recovery_witness :
    c3State.rob = c3Ent :: [] ∧ c3Ent.ready = true ∧
    c3Ent.exception_flag = true ∧ isTermination c3Ent.instr = false ∧
    (∀ r : Fin 32, RegisterFile.get_rob c3State.regs r ≠ NO_TAG →
      ∃ e ∈ c3State.rob, e.dest_tag = some r ∧
        e.id = RegisterFile.get_rob c3State.regs r) ∧
    ((CPU.commitStage c3State).1.rs = [] ∧
     (∀ e ∈ (CPU.commitStage c3State).1.lsb.lsb_entries, e.valid = true →
       e.committed = true) ∧
     (∀ r, RegisterFile.get_rob (CPU.commitStage c3State).1.regs r = NO_TAG) ∧
     (CPU.commitStage c3State).1.pc = c3Ent.pc ∧
     (CPU.commitStage c3State).2 = true ∧
     CPU.fetchAllowed (CPU.commitStage c3State).2 false = false) :=
  ⟨rfl, rfl, rfl, by decide, by decide,
   c3_recovery c3State c3Ent [] false rfl rfl rfl (by decide) (by decide)⟩

end RVSim
